import Mathlib

/-!
Verification of the schema-driven wire-format codec emitted by the code
generators of this repository.  The Java generator
(generator/java/java.babelg.py) and the Objective-C generator
(stone/target/obj_c_types.py, with helpers in stone/target/obj_c_helpers.py)
each render, for every struct and union of a schema, serializer code,
deserializer code and validation code.  The definitions below are a shallow
embedding of the behavior of that generated code, translated case by case
from the generator source: each generator function that emits a fixed code
shape for a schema element becomes a Lean function evaluating that shape.

Modelling conventions, fixed throughout the file:
- machine integers are modelled as Int (the generated Java readers and
  writers pass numbers through unchanged; ranges are only checked by the
  validators);
- binary, timestamp and floating-point fields are omitted from the model:
  the generated code hands them to external library functions
  (StringUtil.base64Encode, JsonDateReader, writeDateIso) that are not part
  of this repository;
- struct references always denote the root of an enumerated-subtype tree
  (a plain record is a root with no subtypes); the parent chain that
  get_ancestors recovers by walking parent_type upward is represented by the
  root-to-node path of tags, exactly as the get_ancestors docstring
  describes, so the non-null tags of the ancestor chain are the edge labels
  of the path;
- generated Java assert statements are not modelled: they are disabled at
  default JVM settings, and the generator itself carries a TODO saying they
  should not be emitted;
- regular-expression matching (java.util.regex) is external; the validator
  model takes the anchored matcher as a parameter patMatch.
-/

namespace StoneWire

/-- Generic wire representation: nested maps, arrays and scalars directly
representable as JSON.  Objects are ordered member lists, matching the
token stream the generated Jackson writers emit.  There is no null
constructor: the generated writers never emit an explicit null. -/
inductive Json where
  | str (s : String)
  | num (n : Int)
  | bool (b : Bool)
  | arr (elems : List Json)
  | obj (members : List (String × Json))

/-- Declared default of a field (mapvalue in java.babelg.py renders these
literal kinds). -/
inductive DefaultVal where
  | dint (n : Int)
  | dbool (b : Bool)
  | dstr (s : String)

mutual

/-- A field type together with its declared constraints, as carried by the
schema model the generators consume (babelapi/stone data_type).  Numeric
kinds are the four integer types of the Java type_map; min/max bounds,
string length/pattern bounds and list item bounds ride on the TypeRef. -/
inductive TypeRef where
  | string_ (minLength maxLength : Option Nat) (pat : Option String)
  | boolean
  | int32 (minValue maxValue : Option Int)
  | int64 (minValue maxValue : Option Int)
  | uint32 (minValue maxValue : Option Int)
  | uint64 (minValue maxValue : Option Int)
  | list_ (elem : TypeRef) (minItems maxItems : Option Nat)
  | nullable (elem : TypeRef)
  | struct_ (s : StructDef)
  | union_ (u : UnionDef)

/-- A struct field: name, type, optional declared default. -/
inductive FieldDef where
  | mk (name : String) (typ : TypeRef) (dflt : Option DefaultVal)

/-- A struct type: its locally declared fields and, when it enumerates
subtypes, the ordered (tag, child) list.  A plain record has no subtypes. -/
inductive StructDef where
  | mk (name : String) (ownFields : List FieldDef) (subtypes : List (String × StructDef))

/-- A union type: namespace name, type name, the ordered variant list
(a variant with payload none is a Void i.e. payload-free variant), and the
name of the catch-all variant when one is declared. -/
inductive UnionDef where
  | mk (ns : String) (name : String) (fields : List (String × Option TypeRef))
       (catchAll : Option String)

end

def FieldDef.name : FieldDef → String
  | .mk n _ _ => n

def FieldDef.typ : FieldDef → TypeRef
  | .mk _ t _ => t

def FieldDef.dflt : FieldDef → Option DefaultVal
  | .mk _ _ d => d

def StructDef.name : StructDef → String
  | .mk n _ _ => n

def StructDef.ownFields : StructDef → List FieldDef
  | .mk _ f _ => f

def StructDef.subtypes : StructDef → List (String × StructDef)
  | .mk _ _ s => s

def UnionDef.ns : UnionDef → String
  | .mk n _ _ _ => n

def UnionDef.name : UnionDef → String
  | .mk _ n _ _ => n

def UnionDef.fields : UnionDef → List (String × Option TypeRef)
  | .mk _ _ f _ => f

def UnionDef.catchAll : UnionDef → Option String
  | .mk _ _ _ c => c

/-- In-memory values of the generated classes.  A struct instance carries
the tag path of its most specific runtime type (relative to its tree root;
empty for a plain record) and one entry per field name, none standing for a
Java null reference.  A union instance carries its tag and the payload
stored for that tag, none for a payload-free variant or a null payload. -/
inductive Value where
  | vstr (s : String)
  | vint (n : Int)
  | vbool (b : Bool)
  | vlist (items : List (Option Value))
  | vstruct (rtPath : List String) (fields : List (String × Option Value))
  | vunion (tag : String) (payload : Option Value)

/-! ### Name formatting of the Java generator (java.babelg.py lines 35-59) -/

/-- Split a character list on a separator, keeping empty words, exactly as
the Python str.split with an explicit separator does. -/
def splitChar (sep : Char) : List Char → List (List Char)
  | [] => [[]]
  | c :: cs =>
    let r := splitChar sep cs
    if c = sep then [] :: r
    else
      match r with
      | [] => [[c]]
      | w :: ws => (c :: w) :: ws

/-- Uppercase the first character of a word, keep the rest: the Python
expression w[:1].upper() + w[1:] used by _capwords. -/
def capFirst : List Char → List Char
  | [] => []
  | c :: cs => c.toUpper :: cs

/-- _capwords: replace slashes by underscores, split on underscores,
capitalize the head of each word and join. -/
def javaCapwords (s : String) : String :=
  String.mk (((splitChar '_' (s.data.map fun c => if c = '/' then '_' else c)).map capFirst).flatten)

/-- _camelcase: _capwords, then lowercase the first character. -/
def javaCamelRaw (s : String) : String :=
  match (javaCapwords s).data with
  | [] => ""
  | c :: cs => String.mk (c.toLower :: cs)

/-- The Java reserved words the generator guards against. -/
def javaReservedWords : List String := ["if", "while", "continue", "public"]

/-- _fixreserved: append an underscore to a reserved word. -/
def fixReserved (s : String) : String :=
  if javaReservedWords.contains s then s ++ "_" else s

/-- camelcase of the Java generator. -/
def camelcase (s : String) : String :=
  fixReserved (javaCamelRaw s)

/-- capwords (also classname) of the Java generator. -/
def capwords (s : String) : String :=
  fixReserved (javaCapwords s)

/-! ### maptype and the variant storage plan
(java.babelg.py lines 82-113 and 578-604) -/

/-- maptype: the Java type expression for a TypeRef.  Nullable wrappers are
stripped; list types render as ArrayList of the element rendering; the
primitive names go through type_map (UInt64, Int64, UInt32 all render Long;
Int32 renders Integer); composite types render their class name. -/
def maptype : TypeRef → String
  | .nullable t => maptype t
  | .list_ t _ _ => "java.util.ArrayList<" ++ maptype t ++ ">"
  | .string_ _ _ _ => "String"
  | .boolean => "Boolean"
  | .int32 _ _ => "Integer"
  | .int64 _ _ => "Long"
  | .uint32 _ _ => "Long"
  | .uint64 _ _ => "Long"
  | .struct_ s => capwords s.name
  | .union_ u => capwords u.name

/-- The unique_value_types map built by generate_union_complex: walking the
variants in order, each variant with a payload whose rendered Java type
name is new introduces a storage member named camelcase(field name +
"_value"); later variants whose payload renders to the same type name reuse
that member.  The association list maps rendered type name to member name. -/
def uniqueValueTypesAux : List (String × String) → List (String × Option TypeRef) →
    List (String × String)
  | acc, [] => acc
  | acc, (_, none) :: rest => uniqueValueTypesAux acc rest
  | acc, (fname, some t) :: rest =>
    let tn := maptype t
    if (acc.lookup tn).isSome then uniqueValueTypesAux acc rest
    else uniqueValueTypesAux (acc ++ [(tn, camelcase (fname ++ "_value"))]) rest

def uniqueValueTypes (fields : List (String × Option TypeRef)) : List (String × String) :=
  uniqueValueTypesAux [] fields

/-- The storage slot (shared member name) assigned to a variant: none for a
payload-free variant, otherwise the member that unique_value_types
associates with the rendered Java type name of the payload. -/
def unionSlot (u : UnionDef) (fname : String) : Option String :=
  match u.fields.find? (fun f => f.1 == fname) with
  | some (_, some t) => (uniqueValueTypes u.fields).lookup (maptype t)
  | _ => none

/-! ### Tag paths and the ancestor chain -/

/-- Resolve a tag path from a tree root, returning the node chain root
first.  This is the path form of get_ancestors (java.babelg.py lines
184-234): the chain element past each node carries the tag by which that
node enumerated it. -/
def structChain (s : StructDef) : List String → Option (List StructDef)
  | [] => some [s]
  | t :: rest =>
    match s.subtypes.lookup t with
    | none => none
    | some child => (structChain child rest).map (fun l => s :: l)

/-- Join with dots: the Python expression joining the non-null ancestor
tags in generate_json_writer. -/
def joinDots : List String → String
  | [] => ""
  | [s] => s
  | s :: rest => s ++ "." ++ joinDots rest

/-- Split a tag string on dots.  Models the split performed by the runtime
readTags helper; like Python str.split it keeps empty segments and never
returns an empty list. -/
def splitDots (s : String) : List String :=
  (splitChar '.' s.data).map String.mk

/-- Modelled from the spec: JsonReader.readTags, provided by the runtime
library rather than this repository, reads a leading .tag member of the
object being parsed, splits its string value on dots into a tag path, and
leaves the remaining members for the field loop; an object with no leading
.tag member yields no tag path. -/
def readTagsModel (kvs : List (String × Json)) :
    Except String (Option (List String) × List (String × Json)) :=
  match kvs with
  | (k, j) :: rest =>
    if k = ".tag" then
      match j with
      | .str s => .ok (some (splitDots s), rest)
      | _ => .error ("the .tag member is not a string")
    else .ok (none, kvs)
  | [] => .ok (none, [])

/-- Set an entry of an association list in place, keeping the original
position of the key. -/
def setKey (k : String) (v : Option Value) :
    List (String × Option Value) → List (String × Option Value)
  | [] => []
  | (k2, v2) :: rest =>
    if k2 = k then (k2, v) :: rest else (k2, v2) :: setKey k v rest

/-! ### The generated Java JSON writers
(generate_json_writer lines 810-843, generate_write_field lines 845-859,
generate_write_value lines 861-889, and the union writer inside
generate_union_complex lines 623-656 and generate_union_simple lines
514-529 of java.babelg.py) -/

mutual

/-- generate_write_value: write one value of the given type.  Nullable
wrappers unwrap (the null check was made by the caller); strings, numbers
and booleans write directly; composite values delegate to the class writer;
list values write an array, skipping null items. -/
def javaWriteValue : Nat → TypeRef → Value → Option Json
  | 0, _, _ => none
  | fuel + 1, t, v =>
    match t, v with
    | .nullable t2, _ => javaWriteValue fuel t2 v
    | .string_ _ _ _, .vstr s => some (.str s)
    | .boolean, .vbool b => some (.bool b)
    | .int32 _ _, .vint n => some (.num n)
    | .int64 _ _, .vint n => some (.num n)
    | .uint32 _ _, .vint n => some (.num n)
    | .uint64 _ _, .vint n => some (.num n)
    | .list_ t2 _ _, .vlist items => (javaWriteItems fuel t2 items).map .arr
    | .struct_ s, _ => javaStructWrite fuel s v
    | .union_ u, _ => javaUnionWrite fuel u v
    | _, _ => none

/-- The loop body of the array case of generate_write_value: each non-null
item is written, null items are skipped. -/
def javaWriteItems : Nat → TypeRef → List (Option Value) → Option (List Json)
  | 0, _, _ => none
  | _ + 1, _, [] => some []
  | fuel + 1, t, none :: rest => javaWriteItems fuel t rest
  | fuel + 1, t, some v :: rest => do
    let j ← javaWriteValue fuel t v
    let r ← javaWriteItems fuel t rest
    pure (j :: r)

/-- writeFields of a struct class: walk the locally declared fields in
order and write each field whose value is not null under the field name
(generate_json_writer lines 837-843). -/
def javaWriteFields : Nat → List FieldDef → List (String × Option Value) →
    Option (List (String × Json))
  | 0, _, _ => none
  | _ + 1, [], _ => some []
  | fuel + 1, f :: rest, vfields => do
    let tail ← javaWriteFields fuel rest vfields
    match vfields.lookup f.name with
    | some (some v) => do
      let j ← javaWriteValue fuel f.typ v
      pure ((f.name, j) :: tail)
    | _ => pure tail

/-- writeFields for every node of a chain, root first (the ancestor loop of
generate_json_writer lines 833-834). -/
def javaWriteChainFields : Nat → List StructDef → List (String × Option Value) →
    Option (List (String × Json))
  | 0, _, _ => none
  | _ + 1, [], _ => some []
  | fuel + 1, node :: rest, vfields => do
    let here ← javaWriteFields fuel node.ownFields vfields
    let tail ← javaWriteChainFields fuel rest vfields
    pure (here ++ tail)

/-- The write method of a generated struct class (generate_json_writer
lines 810-835).  The getWriter indirection dispatches to the writer of the
most specific runtime type of the value, here recovered from the values
runtime tag path; the non-null ancestor tags are the path labels, written
dot-joined under .tag when the path is nonempty, then every chain node
contributes its locally declared fields, root first. -/
def javaStructWrite : Nat → StructDef → Value → Option Json
  | 0, _, _ => none
  | fuel + 1, s, .vstruct path fields => do
    let nodes ← structChain s path
    let body ← javaWriteChainFields fuel nodes fields
    pure (.obj ((if path.isEmpty then [] else [(".tag", .str (joinDots path))]) ++ body))
  | _ + 1, _, _ => none

/-- The write method of a generated union class.  A payload-free variant
writes only the .tag member (this is also the whole writer of
generate_union_simple).  A variant with a payload writes the .tag member
and then, when the payload is not null: a payload whose type is a struct
with no enumerated subtypes is collapsed, its fields written inline via
writeFields; any other payload is written under a member named after the
variant (the doit closure, java.babelg.py lines 638-654). -/
def javaUnionWrite : Nat → UnionDef → Value → Option Json
  | 0, _, _ => none
  | fuel + 1, u, .vunion tag payload =>
    match u.fields.find? (fun f => f.1 == tag) with
    | none => none
    | some (fname, none) => some (.obj [(".tag", .str fname)])
    | some (fname, some t) => do
      let inner ←
        match t, payload with
        | .nullable _, none => some []
        | .nullable t2, some pv => javaUnionPayload fuel t2 pv fname
        | _, some pv => javaUnionPayload fuel t pv fname
        | _, none => none
      pure (.obj ((".tag", .str fname) :: inner))
  | _ + 1, _, _ => none

/-- The doit closure of the union writer: collapse a plain-record payload
into the union object, write any other payload under the variant name. -/
def javaUnionPayload : Nat → TypeRef → Value → String → Option (List (String × Json))
  | 0, _, _, _ => none
  | fuel + 1, .struct_ s, pv, fname =>
    if s.subtypes.isEmpty then
      match pv with
      | .vstruct _ pfields => javaWriteFields fuel s.ownFields pfields
      | _ => none
    else do
      let j ← javaWriteValue fuel (.struct_ s) pv
      pure [(fname, j)]
  | fuel + 1, t, pv, fname => do
    let j ← javaWriteValue fuel t pv
    pure [(fname, j)]

end

/-! ### The generated Java JSON readers
(generate_json_reader lines 891-949 and the union readers inside
generate_union_complex lines 659-737 and generate_union_simple lines
532-542 of java.babelg.py) -/

mutual

/-- The reader instance a field type maps to (mapreader, lines 116-144):
nullable wrappers unwrap, scalars read the matching token, lists read each
array element with the element reader, composites delegate to the class
reader.  Ranges and lengths are not checked while reading; validation is a
separate method. -/
def javaReadValue : Nat → TypeRef → Json → Except String Value
  | 0, _, _ => .error ("out of fuel")
  | fuel + 1, t, j =>
    match t, j with
    | .nullable t2, _ => javaReadValue fuel t2 j
    | .string_ _ _ _, .str s => .ok (.vstr s)
    | .boolean, .bool b => .ok (.vbool b)
    | .int32 _ _, .num n => .ok (.vint n)
    | .int64 _ _, .num n => .ok (.vint n)
    | .uint32 _ _, .num n => .ok (.vint n)
    | .uint64 _ _, .num n => .ok (.vint n)
    | .list_ t2 _ _, .arr elems => do
      let vs ← javaReadItems fuel t2 elems
      pure (.vlist (vs.map some))
    | .struct_ s, _ => javaStructRead fuel s j
    | .union_ u, _ => javaUnionRead fuel u j
    | _, _ => .error ("unexpected token")

/-- Element loop of JsonArrayReader. -/
def javaReadItems : Nat → TypeRef → List Json → Except String (List Value)
  | 0, _, _ => .error ("out of fuel")
  | _ + 1, _, [] => .ok []
  | fuel + 1, t, j :: rest => do
    let v ← javaReadItems fuel t rest
    let x ← javaReadValue fuel t j
    pure (x :: v)

/-- readFields of a generated struct class (lines 933-949): a fresh
instance starts with every field null; each wire member whose name matches
a declared field is read with that field reader (a member for a field that
was already set is a duplicate-field error, the check JsonReader.readField
performs); members matching no declared field are skipped. -/
def javaReadFieldsK (fuel : Nat) (allFields : List FieldDef) :
    List (String × Json) → List (String × Option Value) →
    Except String (List (String × Option Value))
  | [], acc => .ok acc
  | (k, j) :: rest, acc =>
    match fuel with
    | 0 => .error ("out of fuel")
    | fuel + 1 =>
      match allFields.find? (fun f => f.name == k) with
      | none => javaReadFieldsK fuel allFields rest acc
      | some f =>
        match acc.lookup k with
        | some (some _) => .error ("duplicate field " ++ k)
        | _ => do
          let v ← javaReadValue fuel f.typ j
          javaReadFieldsK fuel allFields rest (setKey k (some v) acc)

/-- readFromTags of a generated struct class (lines 912-931): while the
current type enumerates subtypes and a tag segment remains, descend into
the child the segment names; an unmatched segment, or a type whose path is
exhausted, falls back to reading the fields of the type resolved so far
(all inherited fields included), silently. -/
def javaReadFromTags (fuel : Nat) (node : StructDef) (pathAcc : List String)
    (fieldAcc : List FieldDef) (tags : Option (List String))
    (kvs : List (String × Json)) : Except String Value :=
  match fuel with
  | 0 => .error ("out of fuel")
  | fuel + 1 =>
    let allF := fieldAcc ++ node.ownFields
    let fallback : Except String Value := do
      let fs ← javaReadFieldsK fuel allF kvs (allF.map fun f => (f.name, none))
      pure (.vstruct pathAcc fs)
    if node.subtypes.isEmpty then fallback
    else
      match tags with
      | some (t :: restTags) =>
        match node.subtypes.lookup t with
        | some child => javaReadFromTags fuel child (pathAcc ++ [t]) allF (some restTags) kvs
        | none => fallback
      | _ => fallback

/-- The read method of a generated struct class (lines 898-910): expect an
object; a member of an enumerated-subtype tree reads the tag path first and
dispatches through readFromTags, a plain record reads its fields
directly. -/
def javaStructRead : Nat → StructDef → Json → Except String Value
  | 0, _, _ => .error ("out of fuel")
  | fuel + 1, s, .obj kvs =>
    if s.subtypes.isEmpty then do
      let fs ← javaReadFieldsK fuel s.ownFields kvs (s.ownFields.map fun f => (f.name, none))
      pure (.vstruct [] fs)
    else do
      let (tags, rest) ← readTagsModel kvs
      javaReadFromTags fuel s [] [] tags rest
  | _ + 1, _, _ => .error ("expected object start")

/-- The read method of a generated complex union class (lines 659-737).
A bare string is looked up among the variant tags: unknown falls back to
the catch-all when declared, otherwise fails; a payload-free or nullable
variant is produced directly, a variant requiring a value fails.  An object
form reads the leading .tag member; a recognized variant consumes its
payload (collapsed plain-record payloads read the remaining members inline,
other payloads read the single following member; a nullable variant whose
object ends right after the tag leaves the value unset); with no catch-all
an unset value fails as an unanticipated tag, then the object must end, and
with a catch-all an unset value yields the catch-all variant. -/
def javaUnionRead : Nat → UnionDef → Json → Except String Value
  | 0, _, _ => .error ("out of fuel")
  | _ + 1, u, .str text =>
    (match u.fields.find? (fun f => f.1 == text) with
    | none =>
      match u.catchAll with
      | some c => .ok (.vunion c none)
      | none => .error ("Unanticipated tag " ++ text ++ " without catch-all")
    | some (fname, none) => .ok (.vunion fname none)
    | some (fname, some (.nullable _)) => .ok (.vunion fname none)
    | some (fname, some _) => .error ("Tag " ++ fname ++ " requires a value"))
  | fuel + 1, u, .obj kvs => do
    let (tagsOpt, rest) ← readTagsModel kvs
    match tagsOpt with
    | none => .error ("expected a leading .tag member")
    | some tags =>
      let text := tags.headD ""
      let step : Except String (Option Value × List (String × Json)) :=
        match u.fields.find? (fun f => f.1 == text) with
        | none => .ok (none, rest)
        | some (fname, none) => .ok (some (.vunion fname none), rest)
        | some (fname, some t) =>
          match t, rest with
          | .nullable _, [] => .ok (none, [])
          | .nullable t2, _ => javaUnionReadPayload fuel t2 fname rest
          | _, _ => javaUnionReadPayload fuel t fname rest
      let (valueOpt, rest2) ← step
      match u.catchAll with
      | none =>
        match valueOpt with
        | none => .error ("Unanticipated tag " ++ text)
        | some v => if rest2.isEmpty then .ok v else .error ("expected end of object")
      | some c =>
        if rest2.isEmpty then .ok (valueOpt.getD (.vunion c none))
        else .error ("expected end of object")
  | _ + 1, _, _ => .error ("expected object or string")

/-- Payload consumption for a recognized union variant carrying a value:
a payload typed as a struct with no enumerated subtypes is read collapsed,
from the remaining members of the union object; any other payload type
reads the value of the single following member. -/
def javaUnionReadPayload (fuel : Nat) (t : TypeRef) (fname : String)
    (rest : List (String × Json)) :
    Except String (Option Value × List (String × Json)) :=
  match fuel with
  | 0 => .error ("out of fuel")
  | fuel + 1 =>
    match t with
    | .struct_ s =>
      if s.subtypes.isEmpty then do
        let fs ← javaReadFieldsK fuel s.ownFields rest (s.ownFields.map fun f => (f.name, none))
        pure (some (.vunion fname (some (.vstruct [] fs))), [])
      else
        match rest with
        | (_, j) :: rest2 => do
          let v ← javaReadValue fuel t j
          pure (some (.vunion fname (some v)), rest2)
        | [] => .error ("expected a value member")
    | _ =>
      match rest with
      | (_, j) :: rest2 => do
        let v ← javaReadValue fuel t j
        pure (some (.vunion fname (some v)), rest2)
      | [] => .error ("expected a value member")

end

/-- Modelled from the spec: JsonReader.readEnum, provided by the runtime
library rather than this repository, reads a payload-free-only union as a
bare tag string or an object holding a single .tag member, and maps an
unknown tag to the supplied catch-all when one is declared, failing
otherwise.  The generated simple-union reader (lines 532-542) passes the
unions value map and catch-all to it. -/
def javaSimpleUnionRead (u : UnionDef) (j : Json) : Except String Value :=
  let lookupTag (text : String) : Except String Value :=
    match u.fields.find? (fun f => f.1 == text) with
    | some (fname, _) => .ok (.vunion fname none)
    | none =>
      match u.catchAll with
      | some c => .ok (.vunion c none)
      | none => .error ("Unanticipated tag " ++ text)
  match j with
  | .str text => lookupTag text
  | .obj [(k, .str text)] =>
    if k = ".tag" then lookupTag text else .error ("expected a .tag member")
  | _ => .error ("malformed union value")

/-! ### The generated Java validation code
(generate_field_validation, java.babelg.py lines 959-1074, and the
validate methods of generate_json_reader lines 951-957 and
generate_union_complex lines 740-765) -/

/-- The todo predicate of generate_field_validation (lines 968-981):
whether the emitted doit code is nonempty for an unwrapped field type. -/
def javaTodo : TypeRef → Bool
  | .struct_ _ => true
  | .union_ _ => true
  | .list_ _ _ _ => true
  | .int32 mn mx => mn.isSome || mx.isSome
  | .int64 mn mx => mn.isSome || mx.isSome
  | .uint32 mn mx => mn.isSome || mx.isSome
  | .uint64 mn mx => mn.isSome || mx.isSome
  | .string_ mn mx p => mn.isSome || mx.isSome || p.isSome
  | .boolean => false
  | .nullable t => javaTodo t

/-- The in-memory value a declared default renders to (mapvalue). -/
def defaultValue : DefaultVal → Value
  | .dint n => .vint n
  | .dbool b => .vbool b
  | .dstr s => .vstr s

mutual

/-- The doit closure of generate_field_validation (lines 983-1041), which
emits the checks run on a present, non-null value: composites delegate to
the validate method of their class; lists check the declared item bounds
(a bound is checked whenever declared, the generator compares the option
against None), reject null items and validate each item; numbers check
declared min and max values; strings check declared min and max lengths
and, when a pattern is declared, the anchored match (patMatch stands for
java.util.regex matching of the pattern wrapped in anchors); booleans pass.
Validation mutates only by filling nested defaults, so the validated value
is returned. -/
def javaValidate (patMatch : String → String → Bool) : Nat → TypeRef → Value →
    Except String Value
  | 0, _, _ => .error ("out of fuel")
  | fuel + 1, t, v =>
    match t, v with
    | .nullable t2, _ => javaValidate patMatch fuel t2 v
    | .struct_ s, _ => javaStructValidate patMatch fuel s v
    | .union_ u, _ => javaUnionValidate patMatch fuel u v
    | .list_ t2 mn mx, .vlist items =>
      if mn.elim false (fun m => decide (items.length < m)) then
        .error ("List has fewer than min_items items")
      else if mx.elim false (fun m => decide (items.length > m)) then
        .error ("List has more than max_items items")
      else do
        let items2 ← javaValidateItems patMatch fuel t2 items
        pure (.vlist items2)
    | .int32 mn mx, .vint n => javaCheckNum mn mx n v
    | .int64 mn mx, .vint n => javaCheckNum mn mx n v
    | .uint32 mn mx, .vint n => javaCheckNum mn mx n v
    | .uint64 mn mx, .vint n => javaCheckNum mn mx n v
    | .string_ mn mx p, .vstr s =>
      if mn.elim false (fun m => decide (s.length < m)) then
        .error ("String is shorter than min_length")
      else if mx.elim false (fun m => decide (s.length > m)) then
        .error ("String is longer than max_length")
      else if p.elim false (fun pat => !patMatch pat s) then
        .error ("String does not match pattern")
      else .ok v
    | .boolean, .vbool _ => .ok v
    | _, _ => .error ("value of unexpected shape")

/-- Numeric bound checks of doit: a declared bound of any value, zero
included, is compared. -/
def javaCheckNum (mn mx : Option Int) (n : Int) (v : Value) : Except String Value :=
  if mn.elim false (fun m => decide (n < m)) then .error ("Number is smaller than min_value")
  else if mx.elim false (fun m => decide (n > m)) then .error ("Number is larger than max_value")
  else .ok v

/-- Item loop of the list case of doit: null items are rejected, others
validated recursively. -/
def javaValidateItems (patMatch : String → String → Bool) :
    Nat → TypeRef → List (Option Value) → Except String (List (Option Value))
  | 0, _, _ => .error ("out of fuel")
  | _ + 1, _, [] => .ok []
  | _ + 1, _, none :: _ => .error ("An item in the list is null")
  | fuel + 1, t, some x :: rest => do
    let x2 ← javaValidate patMatch fuel t x
    let rest2 ← javaValidateItems patMatch fuel t rest
    pure (some x2 :: rest2)

/-- generate_field_validation for one struct field (lines 1043-1074).
A nullable field accepts an absent value and validates a present one (when
the emitted doit code is nonempty).  A non-nullable field with a declared
default fills an absent value with the default, without validating the
default, and validates a present value, leaving it unchanged.  Any other
field rejects an absent value as a missing required value and validates a
present one. -/
def javaValidateField (patMatch : String → String → Bool) (fuel : Nat)
    (f : FieldDef) (cur : Option Value) : Except String (Option Value) :=
  match fuel with
  | 0 => .error ("out of fuel")
  | fuel + 1 =>
    match f.typ with
    | .nullable t2 =>
      match cur with
      | none => .ok none
      | some v =>
        if javaTodo t2 then (javaValidate patMatch fuel t2 v).map some
        else .ok (some v)
    | t =>
      match f.dflt with
      | some d =>
        match cur with
        | none => .ok (some (defaultValue d))
        | some v =>
          if javaTodo t then (javaValidate patMatch fuel t v).map some
          else .ok (some v)
      | none =>
        match cur with
        | none => .error ("Required value for " ++ camelcase f.name ++ " is null")
        | some v => (javaValidate patMatch fuel t v).map some

/-- Field loop of the validate method of a generated struct reader (lines
951-957): each locally declared field of the class is validated in order,
defaults being filled into the value. -/
def javaValidateFieldList (patMatch : String → String → Bool) :
    Nat → List FieldDef → List (String × Option Value) →
    Except String (List (String × Option Value))
  | 0, _, _ => .error ("out of fuel")
  | _ + 1, [], vfields => .ok vfields
  | fuel + 1, f :: rest, vfields => do
    let cur := (vfields.lookup f.name).join
    let new ← javaValidateField patMatch fuel f cur
    javaValidateFieldList patMatch fuel rest (setKey f.name new vfields)

/-- The validate method of a generated struct reader: the parent validate
runs first, then the locally declared fields are checked; for the root
class modelled here that is the field loop over its own fields. -/
def javaStructValidate (patMatch : String → String → Bool) :
    Nat → StructDef → Value → Except String Value
  | 0, _, _ => .error ("out of fuel")
  | fuel + 1, s, .vstruct path fields => do
    let fields2 ← javaValidateFieldList patMatch fuel s.ownFields fields
    pure (.vstruct path fields2)
  | _ + 1, _, _ => .error ("value of unexpected shape")

/-- The validate method of a generated complex union (lines 740-765):
payload-free tags pass; a tag carrying a payload validates the stored value
with generate_field_validation in its union form, where the default branch
is not emitted: a nullable payload accepts null, any other payload rejects
null as required and is validated. -/
def javaUnionValidate (patMatch : String → String → Bool) :
    Nat → UnionDef → Value → Except String Value
  | 0, _, _ => .error ("out of fuel")
  | fuel + 1, u, .vunion tag payload =>
    match u.fields.find? (fun f => f.1 == tag) with
    | none => .error ("value of unexpected shape")
    | some (_, none) => .ok (.vunion tag payload)
    | some (_, some t) =>
      match t, payload with
      | .nullable _, none => .ok (.vunion tag none)
      | .nullable t2, some pv =>
        if javaTodo t2 then do
          let pv2 ← javaValidate patMatch fuel t2 pv
          pure (.vunion tag (some pv2))
        else .ok (.vunion tag payload)
      | _, none => .error ("Required value is null")
      | t2, some pv => do
        let pv2 ← javaValidate patMatch fuel t2 pv
        pure (.vunion tag (some pv2))
  | _ + 1, _, _ => .error ("value of unexpected shape")

end

/-! ### Name formatting of the Objective-C generator
(fmt_camel and relatives in stone/target/obj_c_helpers.py lines 89-184) -/

/-- Modelled from the spec: split_words lives in stone/target/helpers.py,
which is not under src; on the snake-case identifiers of a schema it splits
a name into its words at underscores. -/
def splitWordsModel (s : String) : List String :=
  ((splitChar '_' s.data).filter (fun w => !w.isEmpty)).map String.mk

/-- Python str.capitalize: first character uppercased, the rest
lowercased. -/
def pyCapitalize (w : String) : String :=
  match w.data with
  | [] => ""
  | c :: cs => String.mk (c.toUpper :: cs.map Char.toLower)

/-- Python str.lower. -/
def pyLower (w : String) : String :=
  String.mk (w.data.map Char.toLower)

/-- The Objective-C reserved words of obj_c_helpers.py. -/
def objcReservedWords : List String :=
  ["auto", "else", "long", "switch", "break", "enum", "register", "typedef",
   "case", "extern", "return", "union", "char", "float", "short", "unsigned",
   "const", "for", "signed", "void", "continue", "goto", "sizeof", "volatile",
   "default", "if", "static", "while", "do", "int", "struct", "_Packed",
   "double", "protocol", "interface", "implementation", "NSObject",
   "NSInteger", "NSNumber", "CGFloat", "property", "nonatomic", "retain",
   "strong", "weak", "unsafe_unretained", "readwrite", "description", "id"]

/-- fmt_camel of obj_c_helpers.py: capitalize every word, lowercase the
first word unless upper_first, join, append an underscore to a reserved
word, and guard the reserved prefixes copy and new. -/
def fmtCamelObjC (upperFirst : Bool) (s : String) : String :=
  let ws := (splitWordsModel s).map pyCapitalize
  let ws :=
    match ws with
    | [] => []
    | w :: rest => (if upperFirst then w else pyLower w) :: rest
  let ret := String.join ws
  let ret := if objcReservedWords.contains (pyLower ret) then ret ++ "_" else ret
  if (pyLower ret).startsWith "copy" || (pyLower ret).startsWith "new" then
    (if upperFirst then "The" else "the") ++ String.mk (capFirst ret.data)
  else ret

/-- fmt_var of obj_c_helpers.py. -/
def fmtVarObjC (s : String) : String := fmtCamelObjC false s

/-- fmt_camel_upper of obj_c_helpers.py. -/
def fmtCamelUpperObjC (s : String) : String := fmtCamelObjC true s

/-- fmt_enum_name of obj_c_helpers.py: namespace, union and field names
camel-uppercased and concatenated. -/
def fmtEnumName (u : UnionDef) (fieldName : String) : String :=
  fmtCamelUpperObjC u.ns ++ fmtCamelUpperObjC u.name ++ fmtCamelUpperObjC fieldName

/-! ### The Objective-C validators
(_determine_validator_type in obj_c_types.py lines 420-473; the validator
bodies live in the DbxStoneValidators resource files, which are not under
src) -/

/-- Python truthiness on an optional number: None and 0 are falsy.  The
emitter tests every declared bound with a bare if, so a declared bound of
zero is rendered as nil. -/
def pyTruthyNat : Option Nat → Option Nat
  | some (n + 1) => some (n + 1)
  | _ => none

/-- Python truthiness on an optional integer bound. -/
def pyTruthyInt : Option Int → Option Int
  | some n => if n = 0 then none else some n
  | none => none

/-- Python truthiness on an optional pattern: None and the empty string are
falsy. -/
def pyTruthyStr : Option String → Option String
  | some "" => none
  | some s => some s
  | none => none

/-- The bounds a generated stringValidator call carries. -/
structure ObjCStringBounds where
  minLength : Option Nat
  maxLength : Option Nat
  pat : Option String

/-- The string case of _determine_validator_type (lines 451-464): a
validator is emitted only when the pattern or one of the length bounds is
truthy, and each argument of the call is itself rendered as nil unless
truthy. -/
def objcDetermineStringValidator (mn mx : Option Nat) (p : Option String) :
    Option ObjCStringBounds :=
  if (pyTruthyStr p).isSome || (pyTruthyNat mn).isSome || (pyTruthyNat mx).isSome then
    some ⟨pyTruthyNat mn, pyTruthyNat mx, pyTruthyStr p⟩
  else none

/-- Modelled from the spec: the runtime stringValidator of
DbxStoneValidators (resource file, not under src) fails a string exactly
when it violates a bound the validator was constructed with; absent bounds
are not checked. -/
def objcRunStringValidator (patMatch : String → String → Bool)
    (b : ObjCStringBounds) (s : String) : Except String Unit :=
  if b.minLength.elim false (fun m => decide (s.length < m)) then
    .error ("string is shorter than min_length")
  else if b.maxLength.elim false (fun m => decide (s.length > m)) then
    .error ("string is longer than max_length")
  else if b.pat.elim false (fun pat => !patMatch pat s) then
    .error ("string does not match pattern")
  else .ok ()

/-- Modelled numeric bound check of the DbxStoneValidators runtime. -/
def objcCheckNum (mn mx : Option Int) (n : Int) : Except String Unit :=
  if mn.elim false (fun m => decide (n < m)) then .error ("number is smaller than minValue")
  else if mx.elim false (fun m => decide (n > m)) then .error ("number is larger than maxValue")
  else .ok ()

mutual

/-- The checks the generated Objective-C constructor runs on a present,
non-nil value, combining _determine_validator_type with the modelled
runtime validators: numeric and list bounds are checked only when truthy,
list items recurse, and composite or boolean values carry no validator at
all (the is_list, is_numeric, is_string chain leaves validator None for
them). -/
def objcCheckValue (patMatch : String → String → Bool) :
    Nat → TypeRef → Value → Except String Unit
  | 0, _, _ => .error ("out of fuel")
  | fuel + 1, t, v =>
    match t, v with
    | .nullable t2, _ => objcCheckValue patMatch fuel t2 v
    | .string_ mn mx p, .vstr s =>
      match objcDetermineStringValidator mn mx p with
      | none => .ok ()
      | some b => objcRunStringValidator patMatch b s
    | .int32 mn mx, .vint n => objcCheckNum (pyTruthyInt mn) (pyTruthyInt mx) n
    | .int64 mn mx, .vint n => objcCheckNum (pyTruthyInt mn) (pyTruthyInt mx) n
    | .uint32 mn mx, .vint n => objcCheckNum (pyTruthyInt mn) (pyTruthyInt mx) n
    | .uint64 mn mx, .vint n => objcCheckNum (pyTruthyInt mn) (pyTruthyInt mx) n
    | .list_ t2 mn mx, .vlist items =>
      if (pyTruthyNat mn).elim false (fun m => decide (items.length < m)) then
        .error ("array has fewer than minItems items")
      else if (pyTruthyNat mx).elim false (fun m => decide (items.length > m)) then
        .error ("array has more than maxItems items")
      else objcCheckItems patMatch fuel t2 items
    | .boolean, _ => .ok ()
    | .struct_ _, _ => .ok ()
    | .union_ _, _ => .ok ()
    | _, _ => .error ("value of unexpected shape")

/-- The item loop of the modelled arrayValidator. -/
def objcCheckItems (patMatch : String → String → Bool) :
    Nat → TypeRef → List (Option Value) → Except String Unit
  | 0, _, _ => .error ("out of fuel")
  | _ + 1, _, [] => .ok ()
  | _ + 1, _, none :: _ => .error ("an array cannot hold nil")
  | fuel + 1, t, some x :: rest => do
    objcCheckValue patMatch fuel t x
    objcCheckItems patMatch fuel t rest

end

/-- The assignment of one constructor argument in _generate_struct_cstor
(obj_c_types.py lines 244-254): a field with a declared default stores the
argument when it is not nil and the rendered default otherwise; any other
field stores the argument unchanged. -/
def objcCstorFieldAssign (dflt : Option DefaultVal) (arg : Option Value) : Option Value :=
  match dflt with
  | some d => some (arg.getD (defaultValue d))
  | none => arg

/-! ### The generated Objective-C serializers and deserializers
(_generate_struct_serializer lines 475-514, _generate_struct_deserializer
lines 516-555, _generate_union_serializer lines 557-594,
_generate_union_deserializer lines 596-629 and _fmt_serialization_call
lines 631-650 of obj_c_types.py).  NSMutableDictionary subscripting is
modelled by dictSet: assignment replaces an existing key, and assigning
the nil an external serializer returns for a nil input removes the key,
so a nil field simply never appears. -/

/-- NSMutableDictionary subscript assignment. -/
def dictSet (k : String) (j : Json) (d : List (String × Json)) : List (String × Json) :=
  (d.filter (fun e => e.1 != k)) ++ [(k, j)]

mutual

/-- _fmt_serialization_call on the serializing side: nullable unwraps,
lists serialize each element through the block, composites call the class
serializer.  The scalar serializers (DbxStringSerializer,
DbxNSNumberSerializer, DbxBoolSerializer) live in the DbxStoneSerializers
resource files, not under src, and are modelled from the spec as the
identity onto the JSON scalar. -/
def objcSerializeValue : Nat → TypeRef → Value → Except String Json
  | 0, _, _ => .error ("out of fuel")
  | fuel + 1, t, v =>
    match t, v with
    | .nullable t2, _ => objcSerializeValue fuel t2 v
    | .string_ _ _ _, .vstr s => .ok (.str s)
    | .boolean, .vbool b => .ok (.bool b)
    | .int32 _ _, .vint n => .ok (.num n)
    | .int64 _ _, .vint n => .ok (.num n)
    | .uint32 _ _, .vint n => .ok (.num n)
    | .uint64 _ _, .vint n => .ok (.num n)
    | .list_ t2 _ _, .vlist items => (objcSerializeItems fuel t2 items).map .arr
    | .struct_ s, _ => (objcStructSerialize fuel [] s v).map .obj
    | .union_ u, _ => (objcUnionSerialize fuel u v).map .obj
    | _, _ => .error ("value of unexpected shape")

/-- Element loop of the DbxArraySerializer block; an NSArray cannot hold
nil. -/
def objcSerializeItems : Nat → TypeRef → List (Option Value) → Except String (List Json)
  | 0, _, _ => .error ("out of fuel")
  | _ + 1, _, [] => .ok []
  | _ + 1, _, none :: _ => .error ("an array cannot hold nil")
  | fuel + 1, t, some v :: rest => do
    let j ← objcSerializeValue fuel t v
    let r ← objcSerializeItems fuel t rest
    pure (j :: r)

/-- The field loop of the struct serialize method (lines 486-496): every
field of all_fields stores its serialized value under the field name; a
nullable field is guarded by a nil check and omitted when nil (a nil
non-nullable field likewise contributes no key, the nil the external
serializer returns vanishing in the subscript assignment). -/
def objcSerialFieldLoop (fuel : Nat) :
    List FieldDef → List (String × Option Value) → List (String × Json) →
    Except String (List (String × Json))
  | [], _, acc => .ok acc
  | f :: rest, vfields, acc =>
    match fuel with
    | 0 => .error ("out of fuel")
    | fuel + 1 =>
      match vfields.lookup f.name with
      | some (some v) => do
        let j ← objcSerializeValue fuel f.typ v
        objcSerialFieldLoop fuel rest vfields (dictSet f.name j acc)
      | _ => objcSerialFieldLoop fuel rest vfields acc

/-- The serialize method of a generated struct class (lines 475-514): the
fields of all_fields are stored first; when the struct enumerates subtypes
and the value is an instance of one of them, the fields that the subtype
serializer produces are copied into the object and .tag is set to the
camel-formatted single tag of that subtype. -/
def objcStructSerialize (fuel : Nat) (inherited : List FieldDef) (s : StructDef)
    (v : Value) : Except String (List (String × Json)) :=
  match fuel with
  | 0 => .error ("out of fuel")
  | fuel + 1 =>
    match v with
    | .vstruct path fields => do
      let all := inherited ++ s.ownFields
      let base ← objcSerialFieldLoop fuel all fields []
      if s.subtypes.isEmpty then pure base
      else
        match path with
        | [] => pure base
        | t :: rest =>
          match s.subtypes.lookup t with
          | none => .error ("runtime type is not an enumerated subtype")
          | some child => do
            let sub ← objcStructSerialize fuel all child (.vstruct rest fields)
            let merged := sub.foldl (fun d e => dictSet e.1 e.2 d) base
            pure (dictSet ".tag" (.str (fmtVarObjC t)) merged)
    | _ => .error ("value of unexpected shape")

/-- The serialize method of a generated union class (lines 557-594): the
is-tag chain finds the variant of the value; a payload is always stored
under a member named after the variant (nullable payloads are guarded, nil
storing nothing), and .tag is stored after it; a tag matching no branch
throws InvalidTagEnum. -/
def objcUnionSerialize (fuel : Nat) (u : UnionDef) (v : Value) :
    Except String (List (String × Json)) :=
  match fuel with
  | 0 => .error ("out of fuel")
  | fuel + 1 =>
    match v with
    | .vunion tag payload =>
      match u.fields.find? (fun f => f.1 == tag) with
      | none => .error ("InvalidTagEnum: Supplied tag enum has an invalid value.")
      | some (fname, none) => .ok [(".tag", .str fname)]
      | some (fname, some t) =>
        match t, payload with
        | .nullable _, none => .ok [(".tag", .str fname)]
        | _, some pv => do
          let j ← objcSerializeValue fuel t pv
          pure [(fname, j), (".tag", .str fname)]
        | _, none => .error ("nil payload for a non-nullable variant")
    | _ => .error ("value of unexpected shape")

end

mutual

/-- _fmt_serialization_call on the deserializing side, symmetric to
objcSerializeValue. -/
def objcDeserializeValue (patMatch : String → String → Bool) :
    Nat → TypeRef → Json → Except String Value
  | 0, _, _ => .error ("out of fuel")
  | fuel + 1, t, j =>
    match t, j with
    | .nullable t2, _ => objcDeserializeValue patMatch fuel t2 j
    | .string_ _ _ _, .str s => .ok (.vstr s)
    | .boolean, .bool b => .ok (.vbool b)
    | .int32 _ _, .num n => .ok (.vint n)
    | .int64 _ _, .num n => .ok (.vint n)
    | .uint32 _ _, .num n => .ok (.vint n)
    | .uint64 _ _, .num n => .ok (.vint n)
    | .list_ t2 _ _, .arr elems => do
      let vs ← objcDeserializeItems patMatch fuel t2 elems
      pure (.vlist (vs.map some))
    | .struct_ s, .obj kvs => objcStructDeserialize patMatch fuel [] [] s kvs
    | .union_ u, .obj kvs => objcUnionDeserialize patMatch fuel u kvs
    | _, _ => .error ("value of unexpected shape")

/-- Element loop of the DbxArraySerializer block when deserializing. -/
def objcDeserializeItems (patMatch : String → String → Bool) :
    Nat → TypeRef → List Json → Except String (List Value)
  | 0, _, _ => .error ("out of fuel")
  | _ + 1, _, [] => .ok []
  | fuel + 1, t, j :: rest => do
    let v ← objcDeserializeValue patMatch fuel t j
    let r ← objcDeserializeItems patMatch fuel t rest
    pure (v :: r)

/-- The per-field reads of the struct deserialize method (lines 524-533):
each field of all_fields reads the member named after it; a nullable field
reads nil when the member is absent, any other field hands the member to
its deserializer (an absent member there is a nil the external deserializer
cannot accept). -/
def objcReadFieldLoop (patMatch : String → String → Bool) (fuel : Nat) :
    List FieldDef → List (String × Json) → Except String (List (String × Option Value))
  | [], _ => .ok []
  | f :: rest, dict =>
    match fuel with
    | 0 => .error ("out of fuel")
    | fuel + 1 =>
      match f.typ with
      | .nullable _ => do
        let v ←
          match dict.lookup f.name with
          | some j => (objcDeserializeValue patMatch fuel f.typ j).map some
          | none => pure none
        let r ← objcReadFieldLoop patMatch fuel rest dict
        pure ((f.name, v) :: r)
      | _ =>
        match dict.lookup f.name with
        | some j => do
          let v ← objcDeserializeValue patMatch fuel f.typ j
          let r ← objcReadFieldLoop patMatch fuel rest dict
          pure ((f.name, some v) :: r)
        | none => .error ("missing member " ++ f.name)

/-- The validator calls and assignments of the generated struct constructor
(_generate_struct_cstor lines 226-255), which the deserializer invokes: a
validator wrapped for a nullable field accepts nil, a present value runs
the checks of its type, and the assignment fills a declared default into a
nil argument. -/
def objcCstorFields (patMatch : String → String → Bool) (fuel : Nat) :
    List FieldDef → List (String × Option Value) →
    Except String (List (String × Option Value))
  | [], _ => .ok []
  | f :: rest, args =>
    match fuel with
    | 0 => .error ("out of fuel")
    | fuel + 1 => do
      let arg := (args.lookup f.name).join
      match arg with
      | some v => objcCheckValue patMatch fuel f.typ v
      | none => pure ()
      let r ← objcCstorFields patMatch fuel rest args
      pure ((f.name, objcCstorFieldAssign f.dflt arg) :: r)

/-- The deserialize method of a generated struct class (lines 516-555): a
plain record reads every field and invokes the constructor; a struct
enumerating subtypes compares the .tag member against the camel-formatted
tag of each direct subtype and delegates to the matching subtype
deserializer, throwing InvalidTagEnum when none matches (a missing or
non-string .tag matches nothing). -/
def objcStructDeserialize (patMatch : String → String → Bool) (fuel : Nat)
    (inherited : List FieldDef) (pathAcc : List String) (s : StructDef)
    (dict : List (String × Json)) : Except String Value :=
  match fuel with
  | 0 => .error ("out of fuel")
  | fuel + 1 =>
    let all := inherited ++ s.ownFields
    if s.subtypes.isEmpty then do
      let args ← objcReadFieldLoop patMatch fuel all dict
      let fields ← objcCstorFields patMatch fuel all args
      pure (.vstruct pathAcc fields)
    else
      match dict.lookup ".tag" with
      | some (.str tagv) =>
        match s.subtypes.find? (fun e => fmtVarObjC e.1 == tagv) with
        | some (t, child) =>
          objcStructDeserialize patMatch fuel all (pathAcc ++ [t]) child dict
        | none => .error ("InvalidTagEnum: Supplied tag enum has an invalid value.")
      | _ => .error ("InvalidTagEnum: Supplied tag enum has an invalid value.")

/-- The deserialize method of a generated union class (lines 596-629): the
.tag member is compared against every variant name; on a match a payload
variant reads the member named after the variant (nil for an absent member
of a nullable variant) and calls the union constructor, which validates
nothing; a tag matching no variant, a missing tag included, throws
InvalidTagEnum even when the union declares a catch-all. -/
def objcUnionDeserialize (patMatch : String → String → Bool) (fuel : Nat)
    (u : UnionDef) (dict : List (String × Json)) : Except String Value :=
  match fuel with
  | 0 => .error ("out of fuel")
  | fuel + 1 =>
    let tag := dict.lookup ".tag"
    match u.fields.find? (fun f => match tag with
        | some (.str s) => f.1 == s
        | _ => false) with
    | none => .error ("InvalidTagEnum: Supplied tag enum has an invalid value.")
    | some (fname, none) => .ok (.vunion fname none)
    | some (fname, some t) =>
      match t with
      | .nullable _ =>
        match dict.lookup fname with
        | some j => do
          let v ← objcDeserializeValue patMatch fuel t j
          pure (.vunion fname (some v))
        | none => .ok (.vunion fname none)
      | _ =>
        match dict.lookup fname with
        | some j => do
          let v ← objcDeserializeValue patMatch fuel t j
          pure (.vunion fname (some v))
        | none => .error ("missing member " ++ fname)

end

/-! ### The generation-time subtype assertion of the Objective-C emitter -/

mutual

/-- Modelled from the spec: get_all_subtypes_with_tags (stone.data_type,
not under src) pairs every type reachable through enumerated subtypes with
its root-to-type tag path; here only the paths are collected. -/
def allSubtypePaths : StructDef → List (List String)
  | .mk _ _ subs => subtypePathList subs

def subtypePathList : List (String × StructDef) → List (List String)
  | [] => []
  | (t, c) :: rest =>
    ([t] :: (allSubtypePaths c).map (fun p => t :: p)) ++ subtypePathList rest

end

/-- Whether _generate_struct_serializer and _generate_struct_deserializer
(obj_c_types.py lines 500-501 and 543-545) can emit code for this struct at
all: both assert that every subtype carries a tag path of length exactly
one, so the Objective-C generator fails on any deeper enumerated-subtype
tree. -/
def objcStructSerializerGenOk (s : StructDef) : Bool :=
  (allSubtypePaths s).all (fun p => p.length == 1)

/-! ### The generated union storage members and getters
(generate_union_complex lines 575-620 of java.babelg.py and
_generate_union_cstor_funcs and _generate_union_tag_vars_funcs of
obj_c_types.py lines 295-312 and 791-813) -/

/-- A generated Java union instance: the tag, and the contents of the
shared storage members keyed by member name. -/
structure JavaUnionValue where
  tag : String
  slots : List (String × Value)

/-- The public static factory of a payload variant: it stores the value in
the storage member its type name shares. -/
def javaUnionFactory (u : UnionDef) (fname : String) (v : Value) : Option JavaUnionValue :=
  (unionSlot u fname).map (fun sn => ⟨fname, [(sn, v)]⟩)

/-- The generated getter of a payload variant (lines 614-620): a tag
mismatch throws a RuntimeException naming the required and the actual tag,
a match returns the shared storage member. -/
def javaUnionGetter (u : UnionDef) (fname : String) (x : JavaUnionValue) :
    Except String (Option Value) :=
  match unionSlot u fname with
  | none => .error ("a payload-free variant has no getter")
  | some sn =>
    if x.tag = fname then .ok (x.slots.lookup sn)
    else
      .error (camelcase ("get_" ++ fname) ++ "() requires tag==" ++ camelcase fname ++
        ", actual tag==" ++ camelcase x.tag)

/-- The enum value string (type)value that getTagName renders and the
Objective-C error messages embed. -/
def objcEnumFullValue (u : UnionDef) (fname : String) : String :=
  "(" ++ fmtEnumName u "tag" ++ ")" ++ fmtEnumName u fname

/-- The generated Objective-C union constructor for one variant
(_generate_union_cstor_funcs): sets the tag and stores the payload in the
property named after the variant. -/
def objcUnionCstor (fname : String) (payload : Option Value) :
    String × List (String × Value) :=
  (fname, match payload with
    | some v => [(fmtVarObjC fname, v)]
    | none => [])

/-- The generated Objective-C getter of a payload variant
(_generate_union_tag_vars_funcs): a tag mismatch raises an
IllegalStateException naming the required enum value and, through
getTagName, the actual one; a match returns the stored property. -/
def objcUnionGetter (u : UnionDef) (fname : String) (tag : String)
    (fields : List (String × Value)) : Except String (Option Value) :=
  if tag = fname then .ok (fields.lookup (fmtVarObjC fname))
  else
    .error ("Invalid tag: required " ++ objcEnumFullValue u fname ++ ", but was " ++
      objcEnumFullValue u tag ++ ".")

/-! ### Concrete schema instances used by the theorems below -/

/-- A union with a catch-all variant and a variant carrying a nullable
string payload. -/
def c1Union : UnionDef :=
  .mk "ns" "U" [("other", none), ("data", some (.nullable (.string_ none none none)))]
    (some "other")

/-- The same union without a catch-all. -/
def c1UnionNoCatch : UnionDef :=
  .mk "ns" "U2" [("a", none), ("data", some (.nullable (.string_ none none none)))] none

/-- The data variant holding a null payload. -/
def c1Value : Value := .vunion "data" none

/-- A plain record with two integer fields. -/
def infoStruct : StructDef :=
  .mk "Info" [.mk "x" (.int64 none none) none, .mk "y" (.int64 none none) none] []

/-- A union whose single variant carries the plain record above. -/
def c2Union : UnionDef := .mk "ns" "V" [("info", some (.struct_ infoStruct))] none

/-- The field assignment of an instance of the plain record. -/
def infoValueFields : List (String × Option Value) :=
  [("x", some (.vint 1)), ("y", some (.vint 2))]

/-- An instance of the plain record. -/
def infoValue : Value := .vstruct [] infoValueFields

/-- A three-level enumerated-subtype tree: treeA enumerates b mapping to
treeB, which enumerates c mapping to treeC. -/
def treeC : StructDef := .mk "C" [.mk "cf" (.string_ none none none) none] []

def treeB : StructDef := .mk "B" [.mk "bf" (.string_ none none none) none] [("c", treeC)]

def treeA : StructDef := .mk "A" [.mk "af" (.string_ none none none) none] [("b", treeB)]

/-- The field assignment of an instance whose most specific runtime type
is treeC. -/
def cValueFields : List (String × Option Value) :=
  [("af", some (.vstr "1")), ("bf", some (.vstr "2")), ("cf", some (.vstr "3"))]

/-- An instance whose most specific runtime type is treeC. -/
def cValue : Value := .vstruct ["b", "c"] cValueFields

/-- A payload-free union with a catch-all. -/
def c4Union : UnionDef := .mk "ns" "W" [("a", none), ("other", none)] (some "other")

/-- Two variants whose payload types differ structurally (Int64 and
UInt32) but render to the same Java type name Long. -/
def c9Union : UnionDef :=
  .mk "ns" "Err" [("a", some (.int64 none none)), ("b", some (.uint32 none none))] none

/-- Two string-typed variants differing only in a declared max_length. -/
def c9StrUnion : UnionDef :=
  .mk "ns" "Msg"
    [("s1", some (.string_ none (some 5) none)), ("s2", some (.string_ none none none))] none

/-- A plain record with one required and one nullable string field. -/
def plainS : StructDef :=
  .mk "S" [.mk "req" (.string_ none none none) none,
           .mk "opt" (.nullable (.string_ none none none)) none] []

/-- A constant pattern matcher standing for a schema with no declared
patterns. -/
def noPat : String → String → Bool := fun _ _ => true

/-! ### C1 -/

/-- C1: the claim states that for every concrete leaf type and every value
satisfying its constraints, decoding the encoding returns an equal value.
The generated Java complex-union reader breaks this for a variant with a
nullable payload holding null: the writer emits only the .tag member, and
on reading it back the switch case hits the end of the object and breaks
with the value still unset although the generated comment says a null value
is OK, so the reader returns the catch-all variant (or fails when no
catch-all is declared) instead of the encoded variant.  The value passes
the generated validate method, so it satisfies its constraints. -/
theorem c1_roundtrip_fails_for_nullable_payload :
    javaUnionValidate noPat 10 c1Union c1Value = .ok c1Value ∧
    javaUnionWrite 10 c1Union c1Value = some (.obj [(".tag", .str "data")]) ∧
    javaUnionRead 10 c1Union (.obj [(".tag", .str "data")]) = .ok (.vunion "other" none) ∧
    (Value.vunion "other" none ≠ c1Value) ∧
    javaUnionValidate noPat 10 c1UnionNoCatch c1Value = .ok c1Value ∧
    javaUnionWrite 10 c1UnionNoCatch c1Value = some (.obj [(".tag", .str "data")]) ∧
    javaUnionRead 10 c1UnionNoCatch (.obj [(".tag", .str "data")]) =
      .error ("Unanticipated tag data") := by
  refine ⟨rfl, rfl, rfl, ?_, rfl, rfl, rfl⟩
  intro h
  injection h with h1 _
  exact absurd h1 (by decide)

/-! ### C2 -/

/-- C2: the claim states that a union variant whose payload is a plain
record is collapsed, its fields emitted inline alongside .tag, identically
in every target-language emitter.  The Objective-C union serializer never
collapses: it stores the serialized payload record under a member named
after the variant, so the payload fields are not inline.  The Java writer
on the same value does collapse. -/
theorem c2_objc_nests_plain_record_payload :
    objcUnionSerialize 10 c2Union (.vunion "info" (some infoValue)) =
      .ok [("info", .obj [("x", .num 1), ("y", .num 2)]), (".tag", .str "info")] ∧
    ([("info", Json.obj [("x", .num 1), ("y", .num 2)]), (".tag", Json.str "info")].lookup "x"
      = none) ∧
    ([("info", Json.obj [("x", .num 1), ("y", .num 2)]), (".tag", Json.str "info")].lookup "info"
      = some (.obj [("x", .num 1), ("y", .num 2)])) ∧
    javaUnionWrite 10 c2Union (.vunion "info" (some infoValue)) =
      some (.obj [(".tag", .str "info"), ("x", .num 1), ("y", .num 2)]) :=
  ⟨rfl, rfl, rfl, rfl⟩

/-- C2 amended: the generated Java union writer collapses a plain-record
payload, emitting the .tag member followed by the writeFields output of the
payload inline; the generated Objective-C union serializer instead stores
the serialized payload under a member named after the variant, followed by
the .tag member. -/
theorem c2_amended_collapse_java_only (fuel : Nat) (u : UnionDef) (fname : String)
    (s : StructDef) (pfields : List (String × Option Value)) (body : List (String × Json))
    (pj : Json)
    (hfind : u.fields.find? (fun f => f.1 == fname) = some (fname, some (.struct_ s)))
    (hplain : s.subtypes = [])
    (hbody : javaWriteFields fuel s.ownFields pfields = some body)
    (hpj : objcSerializeValue (fuel + 1) (.struct_ s) (.vstruct [] pfields) = .ok pj) :
    javaUnionWrite (fuel + 2) u (.vunion fname (some (.vstruct [] pfields))) =
      some (.obj ((".tag", .str fname) :: body)) ∧
    objcUnionSerialize (fuel + 2) u (.vunion fname (some (.vstruct [] pfields))) =
      .ok [(fname, pj), (".tag", .str fname)] := by
  constructor
  · simp [javaUnionWrite, hfind, javaUnionPayload, hplain, hbody]
  · simp [objcUnionSerialize, hfind, hpj]

/-- C2 amended, witness. -/
theorem c2_amended_witness :
    javaUnionWrite 10 c2Union (.vunion "info" (some (.vstruct [] infoValueFields))) =
      some (.obj ((".tag", .str "info") :: [("x", .num 1), ("y", .num 2)])) ∧
    objcUnionSerialize 10 c2Union (.vunion "info" (some (.vstruct [] infoValueFields))) =
      .ok [("info", .obj [("x", .num 1), ("y", .num 2)]), (".tag", .str "info")] :=
  c2_amended_collapse_java_only 8 c2Union "info" infoStruct infoValueFields
    [("x", .num 1), ("y", .num 2)] (.obj [("x", .num 1), ("y", .num 2)])
    rfl rfl rfl rfl

/-! ### C9 -/

/-- C9: the claim states two variants share a storage slot exactly when
their payload TypeRefs are structurally equal, not by rendered type name.
The generated code keys storage members by the rendered Java type name
maptype produces: Int64 and UInt32 both render Long and share a slot, and
two string payloads differing only in a declared max_length also share a
slot, although the TypeRefs are structurally different in both cases. -/
theorem c9_slots_keyed_by_rendered_name :
    unionSlot c9Union "a" = some "aValue" ∧
    unionSlot c9Union "b" = some "aValue" ∧
    (TypeRef.int64 none none ≠ TypeRef.uint32 none none) ∧
    unionSlot c9StrUnion "s1" = some "s1Value" ∧
    unionSlot c9StrUnion "s2" = some "s1Value" ∧
    (TypeRef.string_ none (some 5) none ≠ TypeRef.string_ none none none) := by
  refine ⟨rfl, rfl, ?_, rfl, rfl, ?_⟩
  · intro h; exact TypeRef.noConfusion h
  · intro h
    injection h with _ h2 _
    exact absurd h2 (by decide)

/-! ### C3 -/

/-- C3: the claim states that every emitter encodes a member of an
enumerated-subtype tree with .tag holding the dot-joined root-to-leaf tag
path.  The Java writer does, yielding b.c for the three-level tree; the
Objective-C generator cannot even emit a serializer for that tree, its
struct serializer and deserializer asserting that every subtype tag path
has length exactly one, so no emitted Objective-C code produces the b.c
path. -/
theorem c3_objc_generator_rejects_deep_tree :
    javaStructWrite 10 treeA cValue =
      some (.obj [(".tag", .str "b.c"), ("af", .str "1"), ("bf", .str "2"),
        ("cf", .str "3")]) ∧
    objcStructSerializerGenOk treeA = false ∧
    (["b", "c"] ∈ allSubtypePaths treeA) :=
  ⟨rfl, rfl, by decide⟩

/-- C3 amended: the generated Java struct writer emits .tag holding the
dot-joined tag path of the runtime type of the value (the non-null tags of
its ancestor chain), followed by the fields of every chain node; the
Objective-C generator only accepts trees whose every subtype sits directly
under the root, failing on any deeper tree. -/
theorem c3_amended_tag_path (fuel : Nat) (s : StructDef) (path : List String)
    (fields : List (String × Option Value)) (nodes : List StructDef)
    (body : List (String × Json)) (p : List String)
    (hchain : structChain s path = some nodes)
    (hne : path ≠ [])
    (hbody : javaWriteChainFields fuel nodes fields = some body)
    (hp : p ∈ allSubtypePaths s) (hlen : 2 ≤ p.length) :
    javaStructWrite (fuel + 1) s (.vstruct path fields) =
      some (.obj ((".tag", .str (joinDots path)) :: body)) ∧
    objcStructSerializerGenOk s = false := by
  constructor
  · cases path with
    | nil => exact absurd rfl hne
    | cons p0 ps => simp [javaStructWrite, hchain, hbody]
  · cases hgen : objcStructSerializerGenOk s with
    | false => rfl
    | true =>
      exfalso
      have hall := List.all_eq_true.mp hgen p hp
      simp at hall
      omega

/-- C3 amended, witness. -/
theorem c3_amended_witness :
    javaStructWrite 10 treeA (.vstruct ["b", "c"] cValueFields) =
      some (.obj ((".tag", .str (joinDots ["b", "c"])) ::
        [("af", .str "1"), ("bf", .str "2"), ("cf", .str "3")])) ∧
    objcStructSerializerGenOk treeA = false :=
  c3_amended_tag_path 9 treeA ["b", "c"] cValueFields [treeA, treeB, treeC]
    [("af", .str "1"), ("bf", .str "2"), ("cf", .str "3")] ["b", "c"]
    rfl (by decide) rfl (by decide) (by decide)

/-! ### C4 -/

/-- C4: the claim states that for every union and every wire object whose
tag matches no declared variant, decoding yields the declared catch-all
variant, or an UnrecognizedTag error when none is declared, in every
emitter.  The Objective-C union deserializer throws InvalidTagEnum on an
unknown tag even when the union declares a catch-all; and the Java reader
only yields the catch-all when the unknown-tag object carries no members
besides .tag, failing on a leftover member. -/
theorem c4_objc_ignores_catch_all :
    c4Union.catchAll = some "other" ∧
    objcUnionDeserialize noPat 10 c4Union [(".tag", .str "zz")] =
      .error ("InvalidTagEnum: Supplied tag enum has an invalid value.") ∧
    javaUnionRead 10 c4Union (.obj [(".tag", .str "zz")]) = .ok (.vunion "other" none) ∧
    javaUnionRead 10 c4Union (.obj [(".tag", .str "zz"), ("zz", .num 1)]) =
      .error ("expected end of object") :=
  ⟨rfl, rfl, rfl, rfl⟩

/-- C4 amended: on a wire object holding only an unknown .tag, the
generated Java complex-union reader yields the catch-all variant when one
is declared and fails as an unanticipated tag otherwise, and the simple
union reader does the same on a bare tag string; the generated Objective-C
union deserializer fails with InvalidTagEnum on an unknown tag regardless
of any declared catch-all. -/
theorem c4_amended_unknown_tag (fuel : Nat) (u : UnionDef) (t : String)
    (patMatch : String → String → Bool) (dict : List (String × Json))
    (hnodot : splitDots t = [t])
    (hmiss : u.fields.find? (fun f => f.1 == t) = none)
    (hdict : dict.lookup ".tag" = some (.str t)) :
    javaUnionRead (fuel + 1) u (.obj [(".tag", .str t)]) =
      (match u.catchAll with
        | some c => .ok (.vunion c none)
        | none => .error ("Unanticipated tag " ++ t)) ∧
    javaSimpleUnionRead u (.str t) =
      (match u.catchAll with
        | some c => .ok (.vunion c none)
        | none => .error ("Unanticipated tag " ++ t)) ∧
    objcUnionDeserialize patMatch (fuel + 1) u dict =
      .error ("InvalidTagEnum: Supplied tag enum has an invalid value.") := by
  refine ⟨?_, ?_, ?_⟩
  · cases hc : u.catchAll with
    | none => simp [javaUnionRead, readTagsModel, hnodot, hmiss, hc, Bind.bind, Except.bind]
    | some c => simp [javaUnionRead, readTagsModel, hnodot, hmiss, hc, Bind.bind, Except.bind]
  · cases hc : u.catchAll with
    | none => simp [javaSimpleUnionRead, hmiss, hc]
    | some c => simp [javaSimpleUnionRead, hmiss, hc]
  · simp [objcUnionDeserialize, hdict, hmiss]

/-- C4 amended, witness. -/
theorem c4_amended_witness :
    javaUnionRead 10 c4Union (.obj [(".tag", .str "zz")]) = .ok (.vunion "other" none) ∧
    javaSimpleUnionRead c4Union (.str "zz") = .ok (.vunion "other" none) ∧
    objcUnionDeserialize noPat 10 c4Union [(".tag", .str "zz")] =
      .error ("InvalidTagEnum: Supplied tag enum has an invalid value.") :=
  c4_amended_unknown_tag 9 c4Union "zz" noPat [(".tag", .str "zz")] rfl rfl rfl

/-! ### C5 -/

/-- C5: the claim states that every emitter falls back silently to the
closest resolved type when the tag path runs out or names an unknown tag.
The Java reader does; the Objective-C struct deserializer instead throws
InvalidTagEnum when the .tag of an enumerated-subtype struct matches no
direct subtype. -/
theorem c5_objc_no_fallback :
    javaStructRead 10 treeA (.obj [(".tag", .str "zz"), ("af", .str "1")]) =
      .ok (.vstruct [] [("af", some (.vstr "1"))]) ∧
    javaStructRead 10 treeA
        (.obj [(".tag", .str "b"), ("af", .str "1"), ("bf", .str "2"), ("cf", .str "3")]) =
      .ok (.vstruct ["b"] [("af", some (.vstr "1")), ("bf", some (.vstr "2"))]) ∧
    objcStructDeserialize noPat 10 [] [] treeA [(".tag", .str "zz"), ("af", .str "1")] =
      .error ("InvalidTagEnum: Supplied tag enum has an invalid value.") :=
  ⟨rfl, rfl, rfl⟩

/-- C5 amended: the generated Java reader of an enumerated-subtype tree
falls back silently: a first tag segment naming no subtype of the root
decodes the fields of the root itself, and an exhausted tag path decodes
the fields of the type resolved so far; the generated Objective-C struct
deserializer instead fails with InvalidTagEnum whenever the tag matches no
direct subtype. -/
theorem c5_amended_fallback (fuel : Nat) (s : StructDef) (t t1 : String)
    (restTags : List String) (kvs : List (String × Json))
    (fs : List (String × Option Value)) (patMatch : String → String → Bool)
    (dict : List (String × Json)) (s2 : StructDef) (pathAcc : List String)
    (fieldAcc : List FieldDef)
    (kvs2 : List (String × Json)) (fs2 : List (String × Option Value))
    (hne : s.subtypes.isEmpty = false)
    (ht : splitDots t = t1 :: restTags)
    (hmiss : s.subtypes.lookup t1 = none)
    (hfs : javaReadFieldsK fuel s.ownFields kvs (s.ownFields.map fun f => (f.name, none)) =
      .ok fs)
    (hfs2 : javaReadFieldsK fuel (fieldAcc ++ s2.ownFields) kvs2
      ((fieldAcc ++ s2.ownFields).map fun f => (f.name, none)) = .ok fs2)
    (hdict : dict.lookup ".tag" = some (.str t))
    (hmiss2 : s.subtypes.find? (fun e => fmtVarObjC e.1 == t) = none) :
    javaStructRead (fuel + 2) s (.obj ((".tag", .str t) :: kvs)) = .ok (.vstruct [] fs) ∧
    javaReadFromTags (fuel + 1) s2 pathAcc fieldAcc (some []) kvs2 =
      .ok (.vstruct pathAcc fs2) ∧
    objcStructDeserialize patMatch (fuel + 1) [] [] s dict =
      .error ("InvalidTagEnum: Supplied tag enum has an invalid value.") := by
  refine ⟨?_, ?_, ?_⟩
  · simp [javaStructRead, hne, readTagsModel, ht, javaReadFromTags, hmiss, hfs,
      Bind.bind, Except.bind, Functor.map, Except.map, Pure.pure, Except.pure]
  · simp only [List.map_append] at hfs2
    simp [javaReadFromTags, hne, hfs2, Functor.map, Except.map]
  · simp [objcStructDeserialize, hne, hdict, hmiss2]

/-- C5 amended, witness. -/
theorem c5_amended_witness :
    javaStructRead 10 treeA (.obj [(".tag", .str "zz"), ("af", .str "1")]) =
      .ok (.vstruct [] [("af", some (.vstr "1"))]) ∧
    javaReadFromTags 9 treeB ["b"] [.mk "af" (.string_ none none none) none] (some [])
        [("af", .str "1"), ("bf", .str "2")] =
      .ok (.vstruct ["b"] [("af", some (.vstr "1")), ("bf", some (.vstr "2"))]) ∧
    objcStructDeserialize noPat 9 [] [] treeA [(".tag", .str "zz"), ("af", .str "1")] =
      .error ("InvalidTagEnum: Supplied tag enum has an invalid value.") :=
  c5_amended_fallback 8 treeA "zz" "zz" [] [("af", .str "1")]
    [("af", some (.vstr "1"))] noPat [(".tag", .str "zz"), ("af", .str "1")] treeB ["b"]
    [.mk "af" (.string_ none none none) none] [("af", .str "1"), ("bf", .str "2")]
    [("af", some (.vstr "1")), ("bf", some (.vstr "2"))]
    rfl rfl rfl rfl rfl rfl rfl

/-! ### C6 -/

/-- C6: a field with a declared default and an absent value is filled with
the default without running any check on it (even one the checks would
reject, matching the open soundness question the design notes record); a
present value, an explicit zero included, runs the full doit checks and is
returned, unchanged except for nested default filling inside composite
values.  The Objective-C constructor assignment behaves the same way on
its arguments. -/
theorem c6_default_fill (patMatch : String → String → Bool) (fuel : Nat) (f : FieldDef)
    (d : DefaultVal) (hd : f.dflt = some d) (hnn : ∀ t2, f.typ ≠ .nullable t2) :
    javaValidateField patMatch (fuel + 1) f none = .ok (some (defaultValue d)) ∧
    (∀ v, javaTodo f.typ = true →
      javaValidateField patMatch (fuel + 1) f (some v) =
        (javaValidate patMatch fuel f.typ v).map some) ∧
    (∀ v, javaTodo f.typ = false →
      javaValidateField patMatch (fuel + 1) f (some v) = .ok (some v)) ∧
    objcCstorFieldAssign (some d) none = some (defaultValue d) ∧
    (∀ v, objcCstorFieldAssign (some d) (some v) = some v) := by
  obtain ⟨n, t, dd⟩ := f
  simp only [FieldDef.dflt] at hd
  subst hd
  cases t
  case nullable t2 => exact absurd rfl (hnn t2)
  all_goals
    refine ⟨rfl, ?_, ?_, rfl, fun v => rfl⟩ <;>
    · intro v htodo
      simp only [FieldDef.typ] at htodo
      simp [javaValidateField, FieldDef.typ, FieldDef.dflt, htodo]

/-- C6, witness: the retries field with default 3, and a second field whose
default 0 violates its own declared minimum yet is filled untouched. -/
theorem c6_default_fill_witness :
    javaValidateField noPat 10 (.mk "retries" (.int64 none none) (some (.dint 3))) none =
      .ok (some (.vint 3)) ∧
    javaValidateField noPat 10 (.mk "retries" (.int64 none none) (some (.dint 3)))
      (some (.vint 0)) = .ok (some (.vint 0)) ∧
    javaValidateField noPat 10 (.mk "lives" (.int64 (some 1) none) (some (.dint 0))) none =
      .ok (some (.vint 0)) ∧
    javaValidateField noPat 10 (.mk "lives" (.int64 (some 1) none) (some (.dint 0)))
      (some (.vint 0)) = .error ("Number is smaller than min_value") := by
  have h1 := c6_default_fill noPat 9 (.mk "retries" (.int64 none none) (some (.dint 3)))
    (.dint 3) rfl (fun t2 h => TypeRef.noConfusion h)
  have h2 := c6_default_fill noPat 9 (.mk "lives" (.int64 (some 1) none) (some (.dint 0)))
    (.dint 0) rfl (fun t2 h => TypeRef.noConfusion h)
  exact ⟨h1.1, h1.2.2.1 (.vint 0) rfl, h2.1, by
    have := h2.2.1 (.vint 0) rfl
    rw [this]
    rfl⟩

/-! ### C7 -/

/-- Helper for C7: writeFields never emits a member for a name whose value
is null in the instance. -/
theorem javaWriteFields_omits_null : ∀ (fuel : Nat) (fields : List FieldDef)
    (vfields : List (String × Option Value)) (fname : String) (l : List (String × Json)),
    javaWriteFields fuel fields vfields = some l →
    vfields.lookup fname = some none → l.lookup fname = none := by
  intro fuel
  induction fuel with
  | zero => intro fields vfields fname l hw _; simp [javaWriteFields] at hw
  | succ fuel ih =>
    intro fields vfields fname l hw hnull
    cases fields with
    | nil =>
      simp [javaWriteFields] at hw
      subst hw
      rfl
    | cons f rest =>
      simp only [javaWriteFields, Bind.bind, Option.bind] at hw
      cases htail : javaWriteFields fuel rest vfields with
      | none => rw [htail] at hw; exact Option.noConfusion hw
      | some tail =>
        rw [htail] at hw
        cases hcur : vfields.lookup f.name with
        | none =>
          rw [hcur] at hw
          simp at hw
          subst hw
          exact ih rest vfields fname tail htail hnull
        | some ov =>
          cases ov with
          | none =>
            rw [hcur] at hw
            simp at hw
            subst hw
            exact ih rest vfields fname tail htail hnull
          | some v =>
            rw [hcur] at hw
            simp only [] at hw
            cases hj : javaWriteValue fuel f.typ v with
            | none => simp [hj] at hw
            | some j =>
              simp only [hj] at hw
              simp at hw
              subst hw
              by_cases hname : f.name = fname
              · rw [hname, hnull] at hcur
                exact Option.noConfusion hcur (fun h => Option.noConfusion h)
              · have hbeq : (fname == f.name) = false := beq_false_of_ne (Ne.symm hname)
                simp only [List.lookup, hbeq]
                exact ih rest vfields fname tail htail hnull

/-- Helper for C7: subscript assignment under another key preserves the
absence of a name. -/
theorem dictSet_preserves_absent (k fname : String) (j : Json)
    (hne : k ≠ fname) : ∀ (d : List (String × Json)),
    d.lookup fname = none → (dictSet k j d).lookup fname = none := by
  have hbk : (fname == k) = false := beq_false_of_ne (Ne.symm hne)
  intro d
  induction d with
  | nil =>
    intro _
    simp [dictSet, List.lookup, hbk]
  | cons e rest ih =>
    obtain ⟨a, b⟩ := e
    intro h
    by_cases haf : fname = a
    · subst haf
      simp [List.lookup] at h
    · have hba : (fname == a) = false := beq_false_of_ne haf
      simp only [List.lookup, hba] at h
      by_cases hak : a = k
      · subst hak
        have heq : dictSet a j ((a, b) :: rest) = dictSet a j rest := by
          simp [dictSet, List.filter]
        rw [heq]
        exact ih h
      · have hak2 : (a != k) = true := by simp [bne, beq_false_of_ne hak]
        have heq : dictSet k j ((a, b) :: rest) = (a, b) :: dictSet k j rest := by
          simp [dictSet, List.filter, hak2]
        rw [heq]
        simp only [List.lookup, hba]
        exact ih h

/-- Helper for C7: the Objective-C struct field loop emits no member for a
name whose value is nil. -/
theorem objcFieldLoop_omits_nil : ∀ (fuel : Nat) (fields : List FieldDef)
    (vfields : List (String × Option Value)) (fname : String)
    (acc d : List (String × Json)),
    objcSerialFieldLoop fuel fields vfields acc = .ok d →
    vfields.lookup fname = some none → acc.lookup fname = none →
    d.lookup fname = none := by
  intro fuel
  induction fuel with
  | zero =>
    intro fields vfields fname acc d hw hnull hacc
    cases fields with
    | nil => simp [objcSerialFieldLoop] at hw; subst hw; exact hacc
    | cons f rest => simp [objcSerialFieldLoop] at hw
  | succ fuel ih =>
    intro fields vfields fname acc d hw hnull hacc
    cases fields with
    | nil => simp [objcSerialFieldLoop] at hw; subst hw; exact hacc
    | cons f rest =>
      simp only [objcSerialFieldLoop, Bind.bind, Except.bind] at hw
      cases hcur : vfields.lookup f.name with
      | none =>
        rw [hcur] at hw
        exact ih rest vfields fname acc d hw hnull hacc
      | some ov =>
        cases ov with
        | none =>
          rw [hcur] at hw
          exact ih rest vfields fname acc d hw hnull hacc
        | some v =>
          rw [hcur] at hw
          simp only [] at hw
          cases hj : objcSerializeValue fuel f.typ v with
          | error e => simp [hj] at hw
          | ok j =>
            simp only [hj] at hw
            have hname : f.name ≠ fname := by
              intro hname
              rw [hname, hnull] at hcur
              exact Option.noConfusion hcur (fun h => Option.noConfusion h)
            exact ih rest vfields fname (dictSet f.name j acc) d hw hnull
              (dictSet_preserves_absent f.name fname j hname acc hacc)

/-- C7: a null nullable field contributes no member at all (neither in the
Java writeFields output nor in the Objective-C field loop, and the wire
representation has no null marker to emit), a union variant with a null
nullable payload emits only the .tag member, and a present field value is
written under the field name as the unwrapped encoding, the nullable
wrapper being stripped by the writer. -/
theorem c7_nullable_omitted (fuel : Nat) (fields : List FieldDef)
    (vfields : List (String × Option Value)) (fname : String)
    (l : List (String × Json)) (u : UnionDef) (uf : String) (t : TypeRef)
    (d : List (String × Json))
    (hw : javaWriteFields fuel fields vfields = some l)
    (hnull : vfields.lookup fname = some none)
    (hfind : u.fields.find? (fun f => f.1 == uf) = some (uf, some (.nullable t)))
    (hobjc : objcSerialFieldLoop fuel fields vfields [] = .ok d) :
    l.lookup fname = none ∧
    javaUnionWrite (fuel + 1) u (.vunion uf none) = some (.obj [(".tag", .str uf)]) ∧
    d.lookup fname = none ∧
    (∀ (f : FieldDef) (rest : List FieldDef) (v : Value) (j : Json)
      (tail : List (String × Json)),
      vfields.lookup f.name = some (some v) →
      javaWriteValue fuel f.typ v = some j →
      javaWriteFields fuel rest vfields = some tail →
      javaWriteFields (fuel + 1) (f :: rest) vfields = some ((f.name, j) :: tail)) ∧
    (∀ (t2 : TypeRef) (v : Value),
      javaWriteValue (fuel + 1) (.nullable t2) v = javaWriteValue fuel t2 v) := by
  refine ⟨javaWriteFields_omits_null fuel fields vfields fname l hw hnull, ?_,
    objcFieldLoop_omits_nil fuel fields vfields fname [] d hobjc hnull rfl, ?_, ?_⟩
  · simp [javaUnionWrite, hfind]
  · intro f rest v j tail hv hj htail
    simp [javaWriteFields, htail, hv, hj]
  · intro t2 v
    rfl

/-- C7, witness. -/
theorem c7_nullable_omitted_witness :
    ([("req", Json.str "r")].lookup "opt" = none) ∧
    javaUnionWrite 10 c1Union (.vunion "data" none) = some (.obj [(".tag", .str "data")]) ∧
    ([("req", Json.str "r")].lookup "opt" = none) ∧
    (∀ (f : FieldDef) (rest : List FieldDef) (v : Value) (j : Json)
      (tail : List (String × Json)),
      [("req", some (Value.vstr "r")), ("opt", none)].lookup f.name = some (some v) →
      javaWriteValue 9 f.typ v = some j →
      javaWriteFields 9 rest [("req", some (Value.vstr "r")), ("opt", none)] = some tail →
      javaWriteFields 10 (f :: rest) [("req", some (Value.vstr "r")), ("opt", none)] =
        some ((f.name, j) :: tail)) ∧
    (∀ (t2 : TypeRef) (v : Value),
      javaWriteValue 10 (.nullable t2) v = javaWriteValue 9 t2 v) :=
  c7_nullable_omitted 9 plainS.ownFields [("req", some (.vstr "r")), ("opt", none)] "opt"
    [("req", .str "r")] c1Union "data" (.string_ none none none) [("req", .str "r")]
    rfl rfl rfl rfl

/-! ### C8 -/

/-- C8: the claim states the string and list bound checks apply whenever
the bound is declared, a declared bound of zero included.  The Java
validator does compare a declared zero bound, rejecting the one-character
string against max_length zero; the Objective-C emitter renders every
bound with a bare Python truthiness test, so a declared zero bound
disappears and the same string passes. -/
theorem c8_objc_drops_zero_bound :
    javaValidate noPat 10 (.string_ none (some 0) none) (.vstr "a") =
      .error ("String is longer than max_length") ∧
    objcDetermineStringValidator none (some 0) none = none ∧
    objcCheckValue noPat 10 (.string_ none (some 0) none) (.vstr "a") = .ok () :=
  ⟨rfl, rfl, rfl⟩

/-- C8 amended: the Java string validation succeeds exactly when every
declared bound is met (shorter-than-min, longer-than-max and anchored
pattern mismatch each fail, bounds of zero included), and a declared
min_items bound rejects any shorter list; the Objective-C validator drops
any bound declared as zero, accepting every string against a lone
max_length of zero. -/
theorem c8_amended_bounds (patMatch : String → String → Bool) (fuel : Nat)
    (mn mx : Option Nat) (p : Option String) (s : String) (t2 : TypeRef) (k : Nat)
    (items : List (Option Value)) (hlen : items.length < k) :
    (javaValidate patMatch (fuel + 1) (.string_ mn mx p) (.vstr s) = .ok (.vstr s) ↔
      (∀ m ∈ mn, m ≤ s.length) ∧ (∀ m ∈ mx, s.length ≤ m) ∧
      (∀ pat ∈ p, patMatch pat s = true)) ∧
    javaValidate patMatch (fuel + 1) (.list_ t2 (some k) none) (.vlist items) =
      .error ("List has fewer than min_items items") ∧
    (∀ s2, objcCheckValue patMatch (fuel + 1) (.string_ none (some 0) none) (.vstr s2) =
      .ok ()) := by
  refine ⟨?_, ?_, fun s2 => rfl⟩
  · cases mn <;> cases mx <;> cases p <;>
      simp [javaValidate] <;>
      split_ifs <;>
      simp_all
  · simp [javaValidate, hlen]

/-- C8 amended, witness: max_length five accepts the five-character string
and rejects the six-character one, min_items one rejects the empty list,
and the Objective-C zero bound is dropped. -/
theorem c8_amended_bounds_witness :
    (javaValidate noPat 10 (.string_ none (some 5) none) (.vstr "abcde") =
        .ok (.vstr "abcde") ↔
      (∀ m ∈ (none : Option Nat), m ≤ "abcde".length) ∧
      (∀ m ∈ (some 5 : Option Nat), "abcde".length ≤ m) ∧
      (∀ pat ∈ (none : Option String), noPat pat "abcde" = true)) ∧
    javaValidate noPat 10 (.list_ (.string_ none none none) (some 1) none) (.vlist []) =
      .error ("List has fewer than min_items items") ∧
    (∀ s2, objcCheckValue noPat 10 (.string_ none (some 0) none) (.vstr s2) = .ok ()) :=
  c8_amended_bounds noPat 9 none (some 5) none "abcde" (.string_ none none none) 1 []
    (by decide)

/-! ### C10 -/

/-- C10: for every payload-bearing variant, the generated Java getter
returns the shared storage member when the tag of the instance matches the
variant (in particular the payload stored by the factory of that variant),
and throws an error naming the required and the actual tag on any other
tag; the generated Objective-C getter behaves the same way on its per-field
property, the error carrying both enum values.  Under the tag-matches
precondition the error branch is never taken. -/
theorem c10_getter_guard (u : UnionDef) (fname : String) (v : Value)
    (x : JavaUnionValue) (sn : String)
    (hslot : unionSlot u fname = some sn) :
    (∀ x2, javaUnionFactory u fname v = some x2 →
      javaUnionGetter u fname x2 = .ok (some v)) ∧
    (x.tag = fname → javaUnionGetter u fname x = .ok (x.slots.lookup sn)) ∧
    (x.tag ≠ fname → javaUnionGetter u fname x =
      .error (camelcase ("get_" ++ fname) ++ "() requires tag==" ++ camelcase fname ++
        ", actual tag==" ++ camelcase x.tag)) ∧
    (∀ payload, objcUnionGetter u fname (objcUnionCstor fname payload).1
      (objcUnionCstor fname payload).2 = .ok payload) ∧
    (∀ tag fields, tag ≠ fname → objcUnionGetter u fname tag fields =
      .error ("Invalid tag: required " ++ objcEnumFullValue u fname ++ ", but was " ++
        objcEnumFullValue u tag ++ ".")) := by
  refine ⟨?_, ?_, ?_, ?_, ?_⟩
  · intro x2 hx2
    simp [javaUnionFactory, hslot] at hx2
    subst hx2
    simp [javaUnionGetter, hslot, List.lookup_cons]
  · intro htag
    simp [javaUnionGetter, hslot, htag]
  · intro htag
    simp [javaUnionGetter, hslot, htag]
  · intro payload
    cases payload with
    | none => simp [objcUnionGetter, objcUnionCstor]
    | some pv => simp [objcUnionGetter, objcUnionCstor, List.lookup_cons]
  · intro tag fields htag
    simp [objcUnionGetter, htag]

/-- C10, witness. -/
theorem c10_getter_guard_witness :
    (∀ x2, javaUnionFactory c9Union "a" (.vint 5) = some x2 →
      javaUnionGetter c9Union "a" x2 = .ok (some (.vint 5))) ∧
    ((JavaUnionValue.mk "b" [("aValue", .vint 7)]).tag = "a" →
      javaUnionGetter c9Union "a" ⟨"b", [("aValue", .vint 7)]⟩ =
        .ok ([("aValue", Value.vint 7)].lookup "aValue")) ∧
    ((JavaUnionValue.mk "b" [("aValue", .vint 7)]).tag ≠ "a" →
      javaUnionGetter c9Union "a" ⟨"b", [("aValue", .vint 7)]⟩ =
        .error (camelcase ("get_" ++ "a") ++ "() requires tag==" ++ camelcase "a" ++
          ", actual tag==" ++ camelcase "b")) ∧
    (∀ payload, objcUnionGetter c9Union "a" (objcUnionCstor "a" payload).1
      (objcUnionCstor "a" payload).2 = .ok payload) ∧
    (∀ tag fields, tag ≠ "a" → objcUnionGetter c9Union "a" tag fields =
      .error ("Invalid tag: required " ++ objcEnumFullValue c9Union "a" ++ ", but was " ++
        objcEnumFullValue c9Union tag ++ ".")) :=
  c10_getter_guard c9Union "a" (.vint 5) ⟨"b", [("aValue", .vint 7)]⟩ "aValue" rfl

/-- Helper for C9: a successful association-list lookup exhibits a member
of the list. -/
theorem lookup_mem_of_eq_some {β : Type} : ∀ (l : List (String × β)) (a : String) (b : β),
    l.lookup a = some b → (a, b) ∈ l := by
  intro l
  induction l with
  | nil => intro a b h; simp [List.lookup] at h
  | cons e rest ih =>
    obtain ⟨k, v⟩ := e
    intro a b h
    by_cases hka : a = k
    · subst hka
      simp [List.lookup] at h
      subst h
      exact List.mem_cons_self _ _
    · have hbeq : (a == k) = false := beq_false_of_ne hka
      simp only [List.lookup, hbeq] at h
      exact List.mem_cons_of_mem _ (ih a b h)

/-- C9 amended: two payload variants share a storage slot exactly when
maptype renders their payload types to the same Java type name; the
rendering ignores nullability and every constraint, and identifies the
integer kinds mapping to the same boxed Java type, so slot sharing is
strictly coarser than structural TypeRef equality.  The member names of
distinct type names are assumed distinct, as they must be for the emitted
class to compile. -/
theorem c9_amended_slot_iff_rendered_name (u : UnionDef) (f g : String)
    (tf tg : TypeRef) (sf sg : String)
    (hf : u.fields.find? (fun e => e.1 == f) = some (f, some tf))
    (hg : u.fields.find? (fun e => e.1 == g) = some (g, some tg))
    (hsf : unionSlot u f = some sf) (hsg : unionSlot u g = some sg)
    (hinj : ((uniqueValueTypes u.fields).map Prod.snd).Nodup) :
    sf = sg ↔ maptype tf = maptype tg := by
  simp only [unionSlot, hf, hg] at hsf hsg
  constructor
  · intro hss
    subst hss
    have h1 := lookup_mem_of_eq_some _ _ _ hsf
    have h2 := lookup_mem_of_eq_some _ _ _ hsg
    have h3 := List.inj_on_of_nodup_map hinj h1 h2 rfl
    exact congrArg Prod.fst h3
  · intro hmt
    rw [hmt] at hsf
    have := hsf.symm.trans hsg
    exact Option.some.inj this

/-- C9 amended, witness. -/
theorem c9_amended_slot_witness :
    ("aValue" = "aValue" ↔
      maptype (.int64 none none) = maptype (.uint32 none none)) :=
  c9_amended_slot_iff_rendered_name c9Union "a" "b" (.int64 none none) (.uint32 none none)
    "aValue" "aValue" rfl rfl rfl rfl (by decide)

end StoneWire
